import Mathlib

/-!
Verification development for the `DotGrid` rendering component of the
life-dots repository.

The component exists in two revisions in the sources:
* `src/src/components/DotGrid.tsx` — the current revision (canvas padding 40,
  loose square hit test for both click and hover);
* `src/unnamed/part_001` — an earlier revision of the same component
  (canvas padding 20, strict gap-rejecting remainder hit test for click
  and hover).

Pixel coordinates and CSS sizes are JavaScript numbers; we embed them as
rationals (`ℚ`), with `Math.floor` as `Int.floor` and the JS `%` operator as
truncated remainder.  The camera animation works with `Math.pow` at a real
exponent, so it is embedded over `ℝ` with `Real.rpow`.
-/

/-- Truncation of a rational toward zero, as JavaScript's implicit
truncation in the `%` operator: `trunc q = ⌊q⌋` for `q ≥ 0`, `⌈q⌉` otherwise. -/
def ratTrunc (q : ℚ) : ℤ :=
  if 0 ≤ q then ⌊q⌋ else ⌈q⌉

/-- JavaScript's `%` operator on numbers: `a % b = a − b·trunc(a/b)`
(remainder with the sign of the dividend). -/
def jsFmod (a b : ℚ) : ℚ :=
  a - b * ratTrunc (a / b)

/-- Output of `getGridMetrics` (both revisions): column count, pitch
(`effectiveDotWidth = dotSize + dotGap`), resolved dot size and gap, and the
canvas padding. -/
structure GridMetrics where
  cols : ℤ
  effectiveDotWidth : ℚ
  dotSize : ℚ
  dotGap : ℚ
  padding : ℚ
deriving DecidableEq

/-- `getGridMetrics` of `src/src/components/DotGrid.tsx` (lines 74–89).
`dotSize` and `dotGap` are the already-resolved values (the CSS-variable
fallback chain is outside the pure core).  `PADDING = 40`;
`cols = max(1, ⌊(canvasWidth − 2·PADDING + dotGap) / effectiveDotWidth⌋)`. -/
def getGridMetrics (canvasWidth dotSize dotGap : ℚ) : GridMetrics :=
  let effectiveDotWidth := dotSize + dotGap
  let PADDING : ℚ := 40
  let usableWidth := canvasWidth - PADDING * 2
  let cols := max 1 (⌊(usableWidth + dotGap) / effectiveDotWidth⌋)
  ⟨cols, effectiveDotWidth, dotSize, dotGap, PADDING⟩

/-- `getGridMetrics` of the earlier revision `src/unnamed/part_001`
(identical computation, `PADDING = 20`). -/
def getGridMetricsV1 (canvasWidth dotSize dotGap : ℚ) : GridMetrics :=
  let effectiveDotWidth := dotSize + dotGap
  let PADDING : ℚ := 20
  let usableWidth := canvasWidth - PADDING * 2
  let cols := max 1 (⌊(usableWidth + dotGap) / effectiveDotWidth⌋)
  ⟨cols, effectiveDotWidth, dotSize, dotGap, PADDING⟩

/-- The `zoomedIndex` prop of the current revision: a TypeScript
`number | null` that may also be omitted (`undefined`).  The pointer-handler
guards test `zoomedIndex !== null`, which distinguishes `null` from
`undefined`. -/
inductive ZoomProp where
  | undef : ZoomProp
  | null : ZoomProp
  | idx : ℤ → ZoomProp
deriving DecidableEq

/-- `handleCanvasClick` of `src/src/components/DotGrid.tsx` (lines 95–115).
`hasOnDotClick` models the presence of the `onDotClick` callback;
`clickX`/`clickY` are the pointer position relative to the canvas rectangle
(`e.clientX − rect.left`, `e.clientY − rect.top`).  Returns the index passed
to `onDotClick`, or `none` when no click is fired.  Note: no gap-remainder
check and no comparison of `col` against `cols`. -/
def handleCanvasClick (hasOnDotClick : Bool) (zoomedIndex : ZoomProp)
    (m : GridMetrics) (totalDots : ℤ) (clickX clickY : ℚ) : Option ℤ :=
  if ¬hasOnDotClick ∨ zoomedIndex ≠ ZoomProp.null then none
  else
    let x := clickX - m.padding
    let y := clickY - m.padding
    if x < 0 ∨ y < 0 then none
    else
      let col := ⌊x / m.effectiveDotWidth⌋
      let row := ⌊y / m.effectiveDotWidth⌋
      let index := row * m.cols + col
      if 0 ≤ index ∧ index < totalDots then some index else none

/-- `handleMouseMove` of `src/src/components/DotGrid.tsx` (lines 121–147).
Returns the new `hoveredIndex` state (`none` = hover cleared). -/
def handleMouseMove (zoomedIndex : ZoomProp) (m : GridMetrics)
    (totalDots : ℤ) (clickX clickY : ℚ) : Option ℤ :=
  if zoomedIndex ≠ ZoomProp.null then none
  else
    let x := clickX - m.padding
    let y := clickY - m.padding
    if x < 0 ∨ y < 0 then none
    else
      let col := ⌊x / m.effectiveDotWidth⌋
      let row := ⌊y / m.effectiveDotWidth⌋
      let index := row * m.cols + col
      if 0 ≤ index ∧ index < totalDots then some index else none

/-- `handleCanvasClick` of the earlier revision `src/unnamed/part_001`
(lines 65–88): the strict variant.  After the padding subtraction and the
negative-coordinate guard it additionally computes
`relX = x % effectiveDotWidth`, `relY = y % effectiveDotWidth` and fires only
when `relX ≤ dotSize ∧ relY ≤ dotSize`.  (This revision has no
`zoomedIndex` guard in the click handler.) -/
def handleCanvasClickStrict (hasOnDotClick : Bool) (m : GridMetrics)
    (totalDots : ℤ) (clickX clickY : ℚ) : Option ℤ :=
  if ¬hasOnDotClick then none
  else
    let x := clickX - m.padding
    let y := clickY - m.padding
    if x < 0 ∨ y < 0 then none
    else
      let col := ⌊x / m.effectiveDotWidth⌋
      let row := ⌊y / m.effectiveDotWidth⌋
      let relX := jsFmod x m.effectiveDotWidth
      let relY := jsFmod y m.effectiveDotWidth
      if relX ≤ m.dotSize ∧ relY ≤ m.dotSize then
        let index := row * m.cols + col
        if 0 ≤ index ∧ index < totalDots then some index else none
      else none

/-- Screen-space center of dot `i` as laid out by `draw`
(`src/src/components/DotGrid.tsx` lines 214–218 and 238–239, under the
identity camera transform, after the `ctx.translate(padding, padding)`):
`col = i % cols`, `row = ⌊i / cols⌋`,
`center = (padding + col·effectiveDotWidth + dotSize/2,
           padding + row·effectiveDotWidth + dotSize/2)`. -/
def dotCenter (m : GridMetrics) (i : ℤ) : ℚ × ℚ :=
  let col := i % m.cols
  let row := i / m.cols
  (m.padding + (col : ℚ) * m.effectiveDotWidth + m.dotSize / 2,
   m.padding + (row : ℚ) * m.effectiveDotWidth + m.dotSize / 2)

lemma ratTrunc_eq_floor (q : ℚ) (h : 0 ≤ q) : ratTrunc q = ⌊q⌋ := if_pos h

lemma jsFmod_nonneg_eq (a b : ℚ) (ha : 0 ≤ a) (hb : 0 < b) :
    jsFmod a b = a - b * ⌊a / b⌋ := by
  unfold jsFmod
  rw [ratTrunc_eq_floor _ (div_nonneg ha hb.le)]

lemma floor_cell_center (p s : ℚ) (c : ℤ) (hs : 0 < s) (hsp : s < 2 * p) (hp : 0 < p) :
    ⌊((c : ℚ) * p + s / 2) / p⌋ = c := by
  rw [add_div, mul_div_cancel_right₀ _ (ne_of_gt hp), div_div, Int.floor_int_add]
  have h0 : ⌊s / (2 * p)⌋ = 0 := by
    rw [Int.floor_eq_zero_iff]
    constructor
    · positivity
    · rw [div_lt_one (by linarith)]
      exact hsp
  rw [h0, add_zero]

lemma strict_click_center_general (m : GridMetrics) (totalDots i : ℤ)
    (hpitch : m.effectiveDotWidth = m.dotSize + m.dotGap)
    (hs : 0 < m.dotSize) (hg : 0 ≤ m.dotGap) (hcols : 1 ≤ m.cols)
    (hi0 : 0 ≤ i) (hi : i < totalDots) :
    handleCanvasClickStrict true m totalDots
      (dotCenter m i).1 (dotCenter m i).2 = some i := by
  have hp : (0 : ℚ) < m.effectiveDotWidth := by rw [hpitch]; linarith
  have hcolsne : m.cols ≠ 0 := by omega
  have hcol0 : 0 ≤ i % m.cols := Int.emod_nonneg i hcolsne
  have hrow0 : 0 ≤ i / m.cols := Int.ediv_nonneg hi0 (by omega)
  have hsp : m.dotSize < 2 * m.effectiveDotWidth := by rw [hpitch]; linarith
  have hx : (dotCenter m i).1 - m.padding =
      ((i % m.cols : ℤ) : ℚ) * m.effectiveDotWidth + m.dotSize / 2 := by
    simp only [dotCenter]; ring
  have hy : (dotCenter m i).2 - m.padding =
      ((i / m.cols : ℤ) : ℚ) * m.effectiveDotWidth + m.dotSize / 2 := by
    simp only [dotCenter]; ring
  have hx0 : (0 : ℚ) ≤ (dotCenter m i).1 - m.padding := by
    rw [hx]
    have : (0 : ℚ) ≤ ((i % m.cols : ℤ) : ℚ) := by exact_mod_cast hcol0
    nlinarith
  have hy0 : (0 : ℚ) ≤ (dotCenter m i).2 - m.padding := by
    rw [hy]
    have : (0 : ℚ) ≤ ((i / m.cols : ℤ) : ℚ) := by exact_mod_cast hrow0
    nlinarith
  have hfx : ⌊((dotCenter m i).1 - m.padding) / m.effectiveDotWidth⌋ = i % m.cols := by
    rw [hx]; exact floor_cell_center _ _ _ hs hsp hp
  have hfy : ⌊((dotCenter m i).2 - m.padding) / m.effectiveDotWidth⌋ = i / m.cols := by
    rw [hy]; exact floor_cell_center _ _ _ hs hsp hp
  have hrelx : jsFmod ((dotCenter m i).1 - m.padding) m.effectiveDotWidth = m.dotSize / 2 := by
    rw [jsFmod_nonneg_eq _ _ hx0 hp, hfx, hx]; ring
  have hrely : jsFmod ((dotCenter m i).2 - m.padding) m.effectiveDotWidth = m.dotSize / 2 := by
    rw [jsFmod_nonneg_eq _ _ hy0 hp, hfy, hy]; ring
  have hidx : i / m.cols * m.cols + i % m.cols = i := by
    rw [mul_comm]; exact Int.ediv_add_emod i m.cols
  simp only [handleCanvasClickStrict]
  rw [if_neg (by simp)]
  rw [if_neg (by push_neg; constructor <;> linarith)]
  rw [if_pos (by rw [hrelx, hrely]; constructor <;> linarith)]
  rw [hfx, hfy, hidx]
  rw [if_pos ⟨hi0, hi⟩]

/-- C1: the strict click hit test (`handleCanvasClickStrict`, the click handler
of the `part_001` revision) rejects pointer positions in the gap between
cells: if the remainder of the padding-adjusted x or y within the pitch
period exceeds `dotSize`, no dot is selected and `onDotClick` does not fire;
when both remainders are ≤ `dotSize` and the resulting index is in range,
the index `row·cols + col` fires. -/
theorem strict_click_rejects_gap (hasCb : Bool) (m : GridMetrics)
    (totalDots : ℤ) (cX cY : ℚ) :
    ((m.dotSize < jsFmod (cX - m.padding) m.effectiveDotWidth ∨
      m.dotSize < jsFmod (cY - m.padding) m.effectiveDotWidth) →
      handleCanvasClickStrict hasCb m totalDots cX cY = none) ∧
    (jsFmod (cX - m.padding) m.effectiveDotWidth ≤ m.dotSize →
     jsFmod (cY - m.padding) m.effectiveDotWidth ≤ m.dotSize →
     ¬(cX - m.padding < 0 ∨ cY - m.padding < 0) →
     0 ≤ ⌊(cY - m.padding) / m.effectiveDotWidth⌋ * m.cols +
         ⌊(cX - m.padding) / m.effectiveDotWidth⌋ →
     ⌊(cY - m.padding) / m.effectiveDotWidth⌋ * m.cols +
         ⌊(cX - m.padding) / m.effectiveDotWidth⌋ < totalDots →
     handleCanvasClickStrict true m totalDots cX cY =
       some (⌊(cY - m.padding) / m.effectiveDotWidth⌋ * m.cols +
             ⌊(cX - m.padding) / m.effectiveDotWidth⌋)) := by
  constructor
  · intro h
    simp only [handleCanvasClickStrict]
    split_ifs with h1 h2 h3 h4 <;>
      first
      | rfl
      | (rcases h with h | h <;> rcases h3 with ⟨ha, hb⟩ <;> linarith)
  · intro h1 h2 h3 h4 h5
    simp only [handleCanvasClickStrict]
    rw [if_neg (by simp), if_neg h3, if_pos ⟨h1, h2⟩, if_pos ⟨h4, h5⟩]

theorem strict_click_rejects_gap_witness :
    handleCanvasClickStrict true (getGridMetricsV1 110 6 4) 7 27 22 = none ∧
    handleCanvasClickStrict true (getGridMetricsV1 110 6 4) 7 23 23 = some 0 := by
  constructor
  · exact (strict_click_rejects_gap true (getGridMetricsV1 110 6 4) 7 27 22).1
      (by norm_num [getGridMetricsV1, jsFmod, ratTrunc])
  · have h := (strict_click_rejects_gap true (getGridMetricsV1 110 6 4) 7 23 23).2
      (by norm_num [getGridMetricsV1, jsFmod, ratTrunc])
      (by norm_num [getGridMetricsV1, jsFmod, ratTrunc])
      (by norm_num [getGridMetricsV1])
      (by norm_num [getGridMetricsV1])
      (by norm_num [getGridMetricsV1])
    rw [h]
    norm_num [getGridMetricsV1]

/-- C2: for every grid configuration produced by the layout engine and every
cell index `i ∈ [0, totalDots)`, feeding the screen center of cell `i`
(as computed by `draw`) into the strict click hit test returns exactly `i`. -/
theorem strict_click_inverts_layout (w s g : ℚ) (totalDots i : ℤ)
    (hs : 0 < s) (hg : 0 ≤ g) (hi0 : 0 ≤ i) (hi : i < totalDots) :
    handleCanvasClickStrict true (getGridMetricsV1 w s g) totalDots
      (dotCenter (getGridMetricsV1 w s g) i).1
      (dotCenter (getGridMetricsV1 w s g) i).2 = some i := by
  apply strict_click_center_general
  · rfl
  · exact hs
  · exact hg
  · exact le_max_left 1 _
  · exact hi0
  · exact hi

theorem strict_click_inverts_layout_witness :
    handleCanvasClickStrict true (getGridMetricsV1 110 6 4) 20
      (dotCenter (getGridMetricsV1 110 6 4) 10).1
      (dotCenter (getGridMetricsV1 110 6 4) 10).2 = some 10 :=
  strict_click_inverts_layout 110 6 4 20 10 (by norm_num) (by norm_num)
    (by norm_num) (by norm_num)

/-- C7: for every container width ≤ 0, any positive dot size and
non-negative gap, the column count computed by `getGridMetrics` is
exactly 1. -/
theorem getGridMetrics_cols_floor (w s g : ℚ) (hw : w ≤ 0) (hs : 0 < s)
    (hg : 0 ≤ g) : (getGridMetrics w s g).cols = 1 := by
  have hp : (0 : ℚ) < s + g := by linarith
  have h2 : (w - 40 * 2 + g) / (s + g) < ((2 : ℤ) : ℚ) := by
    rw [div_lt_iff₀ hp]
    push_cast
    linarith
  have hfl : ⌊(w - 40 * 2 + g) / (s + g)⌋ ≤ 1 := by
    have := Int.floor_lt.mpr h2
    omega
  simp only [getGridMetrics]
  exact max_eq_left hfl

theorem getGridMetrics_cols_floor_witness : (getGridMetrics 0 6 4).cols = 1 :=
  getGridMetrics_cols_floor 0 6 4 (by norm_num) (by norm_num) (by norm_num)

/-- C9: there are pointer positions to the right of the last column whose
computed column is ≥ `cols`, yet the current revision's click and hover
handlers still select the index `row·cols + col` because it lands in
`[0, totalDots)` — the column is never compared against the column count.
Concretely: width 110, dot size 6, gap 4 gives 3 columns; the position
(85, 45) has computed column 4 (≥ 3) and computed row 0, yet both handlers
select index 4, which lies in row 1 of the grid. -/
theorem hit_test_ignores_column_overflow :
    (getGridMetrics 110 6 4).cols = 3 ∧
    3 ≤ ⌊((85 : ℚ) - (getGridMetrics 110 6 4).padding) /
        (getGridMetrics 110 6 4).effectiveDotWidth⌋ ∧
    ⌊((45 : ℚ) - (getGridMetrics 110 6 4).padding) /
        (getGridMetrics 110 6 4).effectiveDotWidth⌋ = 0 ∧
    handleCanvasClick true ZoomProp.null (getGridMetrics 110 6 4) 7 85 45 = some 4 ∧
    handleMouseMove ZoomProp.null (getGridMetrics 110 6 4) 7 85 45 = some 4 ∧
    (4 : ℤ) / (getGridMetrics 110 6 4).cols = 1 := by
  norm_num [handleCanvasClick, handleMouseMove, getGridMetrics]

/-- C10: when the `zoomedIndex` prop is omitted (`undefined` rather than an
explicit `null`), the guard `zoomedIndex !== null` is satisfied, so the click
handler never fires `onDotClick` and the mouse-move handler always clears the
hover state, for every pointer position. -/
theorem undefined_zoom_disables_interaction (hasCb : Bool) (m : GridMetrics)
    (totalDots : ℤ) (cX cY : ℚ) :
    handleCanvasClick hasCb ZoomProp.undef m totalDots cX cY = none ∧
    handleMouseMove ZoomProp.undef m totalDots cX cY = none := by
  constructor <;> simp [handleCanvasClick, handleMouseMove]

/-- The four theme colors read by `getColors`
(`src/src/components/DotGrid.tsx` lines 156–164). -/
structure ThemeColors where
  past : String
  today : String
  future : String
  bg : String
deriving DecidableEq

/-- The fill style set for a dot: a solid color, or the vertical "today"
gradient split at the current day fraction. -/
inductive DotFill where
  | color : String → DotFill
  | todayGradient : ℚ → DotFill
deriving DecidableEq

/-- The paint state of one dot at the final `ctx.fill()` of the loop body,
plus the optional glow underlay that the today branch draws beforehand.
`underglow = some (fillStyle, shadowColor, shadowBlur)` models the extra
`ctx.save(); ctx.fill(); ctx.restore()` pass of the today cell.
`shadowColor = none` means the branch did not set `ctx.shadowColor`
(its value leaks from earlier drawing, per the canvas state machine). -/
structure DotPaint where
  underglow : Option (String × String × ℚ)
  fill : DotFill
  shadowColor : Option String
  shadowBlur : ℚ
deriving DecidableEq

/-- JS truthiness of a `string | null` value (the type of
`getDotColor(i)`): `null` and the empty string are falsy, every non-empty
string is truthy.  `draw` branches on `if (customColor)` and
`!customColor`, not on a null test. -/
def jsTruthy : Option String → Bool
  | none => false
  | some c => c != ""

/-- Color determination and hover adjustment for dot `i` in `draw`
(`src/src/components/DotGrid.tsx` lines 244–309).  `customColor` is the
value returned by `getDotColor(i)` (`none` = JS `null`/absent callback);
the branch conditions `if (customColor)` / `!customColor` are JS
truthiness tests, so an empty-string return falls through to the default
temporal coloring.  In the truthy branch `customColor.getD ""` extracts
the (necessarily non-empty) string. -/
def resolveDotPaint (customColor : Option String) (i passedDots : ℤ)
    (hovered : Bool) (colors : ThemeColors) (dotSize dayProgress : ℚ) :
    DotPaint :=
  let glowBlur := dotSize * 2
  let base : DotPaint :=
    if jsTruthy customColor then
      let c := customColor.getD ""
      if c ≠ colors.past ∧ c ≠ colors.future then
        { underglow := none, fill := .color c, shadowColor := some c,
          shadowBlur := dotSize }
      else
        { underglow := none, fill := .color c, shadowColor := none,
          shadowBlur := 0 }
    else
      if i < passedDots then
        { underglow := none, fill := .color colors.past, shadowColor := none,
          shadowBlur := 0 }
      else if i = passedDots then
        { underglow := some (colors.bg, colors.today, glowBlur),
          fill := .todayGradient dayProgress, shadowColor := none,
          shadowBlur := 0 }
      else
        { underglow := none, fill := .color colors.future, shadowColor := none,
          shadowBlur := 0 }
  if hovered then
    if i ≠ passedDots ∧ ¬jsTruthy customColor then
      { base with fill := .color (if i < passedDots then "#888" else "#444"),
                  shadowBlur := 0 }
    else if jsTruthy customColor then
      { base with shadowBlur := glowBlur * 1.5 }
    else
      { base with shadowBlur := glowBlur * 1.5 }
  else base

/-- One pass of the per-dot loop of `draw`
(`src/src/components/DotGrid.tsx` lines 214–310), with a fallible color
callback.  `getDotColor i = none` models a callback invocation that throws;
`some c` models a normal return of `c`.  The call
`const customColor = getDotColor ? getDotColor(i) : null` has no
surrounding try/catch, so a throw aborts the loop: the result is the list
of dots painted before the throw, paired with `false` (frame aborted). -/
def drawCellsFrom (getDotColor : ℕ → Option (Option String)) (passedDots : ℤ)
    (hoveredIndex : Option ℕ) (colors : ThemeColors)
    (dotSize dayProgress : ℚ) : ℕ → ℕ → List DotPaint × Bool
  | _, 0 => ([], true)
  | i, n + 1 =>
    match getDotColor i with
    | none => ([], false)
    | some c =>
      let p := resolveDotPaint c (i : ℤ) passedDots
        (decide (hoveredIndex = some i)) colors dotSize dayProgress
      let rest := drawCellsFrom getDotColor passedDots hoveredIndex colors
        dotSize dayProgress (i + 1) n
      (p :: rest.1, rest.2)

/-- The whole per-frame dot loop: paints dots `0 … totalDots − 1`. -/
def drawLoop (getDotColor : ℕ → Option (Option String)) (passedDots : ℤ)
    (hoveredIndex : Option ℕ) (colors : ThemeColors)
    (dotSize dayProgress : ℚ) (totalDots : ℕ) : List DotPaint × Bool :=
  drawCellsFrom getDotColor passedDots hoveredIndex colors dotSize dayProgress
    0 totalDots

/-- Surface sizing of `draw` (`src/src/components/DotGrid.tsx` lines
171–197): resolves the drawing width (`dimensions.width || canvas.clientWidth`),
computes the required height, and decides whether the backing canvas is
resized (`some (newWidth, newHeight)` in physical pixels) or left alone.
The second component is the number of dots the frame then paints — the
function has no early exit, so it is always `totalDots`. -/
def drawFrame (dimWidth clientWidth canvasW canvasH devicePixelRatio
    innerHeight dotSize dotGap : ℚ) (totalDots : ℕ) :
    Option (ℚ × ℚ) × ℕ :=
  let availableWidth := if dimWidth = 0 then clientWidth else dimWidth
  let m := getGridMetrics availableWidth dotSize dotGap
  let rows := ⌈(totalDots : ℚ) / (m.cols : ℚ)⌉
  let gridHeight := (rows : ℚ) * m.effectiveDotWidth - m.dotGap
  let totalHeight := max (gridHeight + m.padding * 2) innerHeight
  let pixelRatio := if devicePixelRatio = 0 then 1 else devicePixelRatio
  let resize :=
    if canvasW ≠ availableWidth * pixelRatio ∨ canvasH ≠ totalHeight * pixelRatio
    then some (availableWidth * pixelRatio, totalHeight * pixelRatio)
    else none
  (resize, totalDots)

/-- The hardcoded fallback theme of `getColors`
(`src/src/components/DotGrid.tsx` lines 158–163). -/
def defaultColors : ThemeColors :=
  ⟨"#555", "#00ff88", "#222", "#111"⟩

/-- C5 counterexample: a `getDotColor` callback that throws at cell 0 of a
2-dot frame aborts the whole frame — no dot at all is painted and the frame
does not complete — whereas the same frame with a callback that returns
`null` for every cell paints both dots; the throw is not treated as
"no override for that cell". -/
theorem override_throw_aborts_frame :
    drawLoop (fun _ => none) 1 none defaultColors 6 0 2 = ([], false) ∧
    (drawLoop (fun _ => some none) 1 none defaultColors 6 0 2).1.length = 2 ∧
    (drawLoop (fun _ => some none) 1 none defaultColors 6 0 2).2 = true := by
  refine ⟨rfl, rfl, rfl⟩

/-- C5 amended: a throw from the color callback at cell `i` propagates out
of the per-frame draw loop: the cell at `i` and every cell after it are not
painted and the frame is aborted. -/
theorem override_throw_propagates (getDotColor : ℕ → Option (Option String))
    (passedDots : ℤ) (hoveredIndex : Option ℕ) (colors : ThemeColors)
    (dotSize dayProgress : ℚ) (i n : ℕ) (h : getDotColor i = none) :
    drawCellsFrom getDotColor passedDots hoveredIndex colors dotSize
      dayProgress i (n + 1) = ([], false) := by
  simp [drawCellsFrom, h]

theorem override_throw_propagates_witness :
    drawCellsFrom (fun _ => none) 1 none defaultColors 6 0 0 2 = ([], false) :=
  override_throw_propagates (fun _ => none) 1 none defaultColors 6 0 0 1 rfl

/-- C8 counterexample: with `dimensions.width = 0` and `clientWidth = 0`
(zero resolved drawing width) and a 100×100 backing canvas, the frame is
not skipped: `draw` issues a resize of the backing surface to width 0 and
still paints all 3 dots. -/
theorem zero_width_draw_not_skipped :
    drawFrame 0 0 100 100 1 600 6 4 3 = (some (0, 600), 3) := by
  norm_num [drawFrame, getGridMetrics]

/-- C8 amended: when the resolved drawing width is zero the draw proceeds
anyway for that tick: every one of the `totalDots` cells is painted, and any
resize the tick issues is a zero-width surface resize. -/
theorem zero_width_draw_proceeds (canvasW canvasH devicePixelRatio
    innerHeight dotSize dotGap : ℚ) (totalDots : ℕ) :
    (drawFrame 0 0 canvasW canvasH devicePixelRatio innerHeight dotSize
        dotGap totalDots).2 = totalDots ∧
    ((drawFrame 0 0 canvasW canvasH devicePixelRatio innerHeight dotSize
        dotGap totalDots).1.map Prod.fst = none ∨
     (drawFrame 0 0 canvasW canvasH devicePixelRatio innerHeight dotSize
        dotGap totalDots).1.map Prod.fst = some 0) := by
  constructor
  · simp [drawFrame]
  · simp only [drawFrame]
    split_ifs <;> simp

/-- The camera transform `{x, y, k}` held in `currentTransform`
(`src/src/components/DotGrid.tsx` line 45). -/
structure CamTransform where
  x : ℝ
  y : ℝ
  k : ℝ

open Classical in
/-- One invocation of `animate` (`src/src/components/DotGrid.tsx` lines
317–391), given the already-computed target transform and the elapsed time
`delta` (ms) since the previous tick.  If all three components are within
epsilon (`0.001` for scale, `0.5` for each translation) of the target, the
transform snaps exactly to the target and the loop stops; otherwise each
component is moved by `current + (target − current)·factor` with
`factor = 1 − (1 − 0.12)^(delta/16)`. -/
noncomputable def animTick (target curr : CamTransform) (delta : ℝ) :
    CamTransform :=
  if |curr.k - target.k| < 0.001 ∧ |curr.x - target.x| < 0.5 ∧
      |curr.y - target.y| < 0.5 then
    target
  else
    let speed : ℝ := 0.12
    let factor := 1 - (1 - speed) ^ (delta / 16)
    { x := curr.x + (target.x - curr.x) * factor,
      y := curr.y + (target.y - curr.y) * factor,
      k := curr.k + (target.k - curr.k) * factor }

/-- The transform after `n` animation ticks toward a fixed target, starting
from `c0`, where tick `n` observes elapsed time `d n`.  Models the
`requestAnimationFrame` loop with a constant `zoomedIndex`. -/
noncomputable def animTraj (target c0 : CamTransform) (d : ℕ → ℝ) :
    ℕ → CamTransform
  | 0 => c0
  | n + 1 => animTick target (animTraj target c0 d n) (d n)

/-- The transform after `n` ticks when the target may change between ticks
(tick `n` uses target `tgt n`).  `currentTransform` is a `useRef` owned by
the component, so a change of `zoomedIndex` restarts the effect but leaves
the current transform untouched: only the target sequence changes. -/
noncomputable def animTrajSeq (tgt : ℕ → CamTransform) (c0 : CamTransform)
    (d : ℕ → ℝ) : ℕ → CamTransform
  | 0 => c0
  | n + 1 => animTick (tgt n) (animTrajSeq tgt c0 d n) (d n)

/-- The per-tick damping survival factor `(1 − speed)^(Δt/16)`: the fraction
of the remaining distance to the target that survives one tick of elapsed
time `δ`. -/
noncomputable def dampBase (δ : ℝ) : ℝ := (1 - 0.12 : ℝ) ^ (δ / 16)

lemma dampBase_pos (δ : ℝ) : 0 < dampBase δ :=
  Real.rpow_pos_of_pos (by norm_num) _

lemma dampBase_le_one (δ : ℝ) (h : 0 ≤ δ) : dampBase δ ≤ 1 :=
  Real.rpow_le_one (by norm_num) (by norm_num) (by positivity)

lemma dampBase_lt_one (δ : ℝ) (h : 0 < δ) : dampBase δ < 1 :=
  Real.rpow_lt_one (by norm_num) (by norm_num) (by positivity)

lemma dampBase_anti (δ₁ δ₂ : ℝ) (h : δ₁ ≤ δ₂) : dampBase δ₂ ≤ dampBase δ₁ :=
  Real.rpow_le_rpow_of_exponent_ge (by norm_num) (by norm_num) (by linarith)

lemma lerp_abs_le (a b f ρ : ℝ) (hf0 : 0 ≤ 1 - f) (hfρ : 1 - f ≤ ρ) :
    |a + (b - a) * f - b| ≤ |a - b| * ρ := by
  have hrw : a + (b - a) * f - b = (a - b) * (1 - f) := by ring
  rw [hrw, abs_mul, abs_of_nonneg hf0]
  exact mul_le_mul_of_nonneg_left hfρ (abs_nonneg _)

lemma lerp_between (a b f : ℝ) (h0 : 0 ≤ f) (h1 : f ≤ 1) :
    min a b ≤ a + (b - a) * f ∧ a + (b - a) * f ≤ max a b := by
  rcases le_total a b with h | h
  · rw [min_eq_left h, max_eq_right h]
    constructor <;> nlinarith
  · rw [min_eq_right h, max_eq_left h]
    constructor <;> nlinarith

lemma animTick_fixed (t : CamTransform) (δ : ℝ) : animTick t t δ = t := by
  unfold animTick
  rw [if_pos (by norm_num)]

lemma animTick_err_x (t c : CamTransform) (δ δmin : ℝ) (hδ : δmin ≤ δ) :
    |(animTick t c δ).x - t.x| ≤ |c.x - t.x| * dampBase δmin := by
  simp only [animTick]
  split_ifs with h
  · rw [sub_self, abs_zero]
    exact mul_nonneg (abs_nonneg _) (dampBase_pos _).le
  · exact lerp_abs_le _ _ _ _ (by simpa using (dampBase_pos δ).le)
      (by simpa [dampBase] using dampBase_anti δmin δ hδ)

lemma animTick_err_y (t c : CamTransform) (δ δmin : ℝ) (hδ : δmin ≤ δ) :
    |(animTick t c δ).y - t.y| ≤ |c.y - t.y| * dampBase δmin := by
  simp only [animTick]
  split_ifs with h
  · rw [sub_self, abs_zero]
    exact mul_nonneg (abs_nonneg _) (dampBase_pos _).le
  · exact lerp_abs_le _ _ _ _ (by simpa using (dampBase_pos δ).le)
      (by simpa [dampBase] using dampBase_anti δmin δ hδ)

lemma animTick_err_k (t c : CamTransform) (δ δmin : ℝ) (hδ : δmin ≤ δ) :
    |(animTick t c δ).k - t.k| ≤ |c.k - t.k| * dampBase δmin := by
  simp only [animTick]
  split_ifs with h
  · rw [sub_self, abs_zero]
    exact mul_nonneg (abs_nonneg _) (dampBase_pos _).le
  · exact lerp_abs_le _ _ _ _ (by simpa using (dampBase_pos δ).le)
      (by simpa [dampBase] using dampBase_anti δmin δ hδ)

lemma animTraj_err (t c0 : CamTransform) (d : ℕ → ℝ) (δmin : ℝ)
    (hd : ∀ n, δmin ≤ d n) (n : ℕ) :
    |(animTraj t c0 d n).x - t.x| ≤ |c0.x - t.x| * dampBase δmin ^ n ∧
    |(animTraj t c0 d n).y - t.y| ≤ |c0.y - t.y| * dampBase δmin ^ n ∧
    |(animTraj t c0 d n).k - t.k| ≤ |c0.k - t.k| * dampBase δmin ^ n := by
  induction n with
  | zero => simp [animTraj]
  | succ n ih =>
    have hρ := (dampBase_pos δmin).le
    refine ⟨?_, ?_, ?_⟩
    · calc |(animTraj t c0 d (n + 1)).x - t.x|
          ≤ |(animTraj t c0 d n).x - t.x| * dampBase δmin :=
            animTick_err_x t _ (d n) δmin (hd n)
        _ ≤ |c0.x - t.x| * dampBase δmin ^ n * dampBase δmin :=
            mul_le_mul_of_nonneg_right ih.1 hρ
        _ = |c0.x - t.x| * dampBase δmin ^ (n + 1) := by ring
    · calc |(animTraj t c0 d (n + 1)).y - t.y|
          ≤ |(animTraj t c0 d n).y - t.y| * dampBase δmin :=
            animTick_err_y t _ (d n) δmin (hd n)
        _ ≤ |c0.y - t.y| * dampBase δmin ^ n * dampBase δmin :=
            mul_le_mul_of_nonneg_right ih.2.1 hρ
        _ = |c0.y - t.y| * dampBase δmin ^ (n + 1) := by ring
    · calc |(animTraj t c0 d (n + 1)).k - t.k|
          ≤ |(animTraj t c0 d n).k - t.k| * dampBase δmin :=
            animTick_err_k t _ (d n) δmin (hd n)
        _ ≤ |c0.k - t.k| * dampBase δmin ^ n * dampBase δmin :=
            mul_le_mul_of_nonneg_right ih.2.2 hρ
        _ = |c0.k - t.k| * dampBase δmin ^ (n + 1) := by ring

/-- C3: from any starting transform and any fixed target, for every tick
sequence whose elapsed times are bounded inside positive bounds
`[δmin, δmax]`, the animation loop reaches the target exactly in finitely
many ticks (the epsilon check snaps it there), and every later tick leaves
the transform exactly equal to the target. -/
theorem anim_convergence (c0 target : CamTransform) (δmin δmax : ℝ)
    (h0 : 0 < δmin) (_hminmax : δmin ≤ δmax) (d : ℕ → ℝ)
    (hd : ∀ n, δmin ≤ d n ∧ d n ≤ δmax) :
    ∃ N, ∀ n, N ≤ n → animTraj target c0 d n = target := by
  have hρ0 : 0 < dampBase δmin := dampBase_pos _
  have hρ1 : dampBase δmin < 1 := dampBase_lt_one _ h0
  obtain ⟨M, hM⟩ : ∃ M : ℝ,
      M = |c0.x - target.x| + |c0.y - target.y| + |c0.k - target.k| + 1 :=
    ⟨_, rfl⟩
  have hM0 : 0 < M := by
    rw [hM]; positivity
  obtain ⟨N, hN⟩ :=
    exists_pow_lt_of_lt_one (show (0 : ℝ) < 0.001 / M by positivity) hρ1
  have hMρ : M * dampBase δmin ^ N < 0.001 := by
    rw [lt_div_iff₀ hM0] at hN
    nlinarith
  have herr := animTraj_err target c0 d δmin (fun n => (hd n).1) N
  have hxM : |c0.x - target.x| ≤ M := by
    have h1 := abs_nonneg (c0.y - target.y)
    have h2 := abs_nonneg (c0.k - target.k)
    rw [hM]; linarith
  have hyM : |c0.y - target.y| ≤ M := by
    have h1 := abs_nonneg (c0.x - target.x)
    have h2 := abs_nonneg (c0.k - target.k)
    rw [hM]; linarith
  have hkM : |c0.k - target.k| ≤ M := by
    have h1 := abs_nonneg (c0.x - target.x)
    have h2 := abs_nonneg (c0.y - target.y)
    rw [hM]; linarith
  have hpow : (0 : ℝ) ≤ dampBase δmin ^ N := pow_nonneg hρ0.le N
  have hx : |(animTraj target c0 d N).x - target.x| < 0.5 := by
    have hb := mul_le_mul_of_nonneg_right hxM hpow
    have := herr.1
    linarith
  have hy : |(animTraj target c0 d N).y - target.y| < 0.5 := by
    have hb := mul_le_mul_of_nonneg_right hyM hpow
    have := herr.2.1
    linarith
  have hk : |(animTraj target c0 d N).k - target.k| < 0.001 := by
    have hb := mul_le_mul_of_nonneg_right hkM hpow
    have := herr.2.2
    linarith
  have hstep : animTraj target c0 d (N + 1) = target := by
    show animTick target (animTraj target c0 d N) (d N) = target
    unfold animTick
    rw [if_pos ⟨hk, hx, hy⟩]
  refine ⟨N + 1, ?_⟩
  intro n hn
  induction n, hn using Nat.le_induction with
  | base => exact hstep
  | succ n hn ih =>
    show animTick target (animTraj target c0 d n) (d n) = target
    rw [ih, animTick_fixed]

theorem anim_convergence_witness :
    ∃ N, ∀ n, N ≤ n →
      animTraj ⟨0, 0, 1⟩ ⟨100, -40, 3⟩ (fun _ => 16) n = ⟨0, 0, 1⟩ :=
  anim_convergence ⟨100, -40, 3⟩ ⟨0, 0, 1⟩ 16 16 (by norm_num) le_rfl
    (fun _ => 16) (fun _ => ⟨le_rfl, le_rfl⟩)

lemma animTick_between (t c : CamTransform) (δ : ℝ) (hδ : 0 ≤ δ) :
    (min c.x t.x ≤ (animTick t c δ).x ∧ (animTick t c δ).x ≤ max c.x t.x) ∧
    (min c.y t.y ≤ (animTick t c δ).y ∧ (animTick t c δ).y ≤ max c.y t.y) ∧
    (min c.k t.k ≤ (animTick t c δ).k ∧ (animTick t c δ).k ≤ max c.k t.k) := by
  have hf0 : (0 : ℝ) ≤ 1 - (1 - (1 - 0.12 : ℝ) ^ (δ / 16)) := by
    have := dampBase_pos δ
    simp only [dampBase] at this
    linarith
  have hf1 : 1 - (1 - 0.12 : ℝ) ^ (δ / 16) ≤ 1 := by
    have := dampBase_pos δ
    simp only [dampBase] at this
    linarith
  have hf0' : (0 : ℝ) ≤ 1 - (1 - 0.12 : ℝ) ^ (δ / 16) := by
    have := dampBase_le_one δ hδ
    simp only [dampBase] at this
    linarith
  simp only [animTick]
  split_ifs with h
  · exact ⟨⟨min_le_right _ _, le_max_right _ _⟩,
      ⟨min_le_right _ _, le_max_right _ _⟩,
      ⟨min_le_right _ _, le_max_right _ _⟩⟩
  · exact ⟨lerp_between c.x t.x _ hf0' hf1,
      lerp_between c.y t.y _ hf0' hf1,
      lerp_between c.k t.k _ hf0' hf1⟩

/-- C6: if the focus target changes at tick `m` (targets `t1` before, `t2`
from tick `m` on), the current transform is preserved across the re-target:
the trajectory up to `m` equals the fixed-target trajectory toward `t1`, the
next tick interpolates from that preserved value toward `t2`, and each
component of the post-switch transform stays between the preserved current
value and the new target — so `current` never jumps discontinuously to
`{0, 0, 1}` (or anywhere else outside that segment). -/
theorem retarget_preserves_current (t1 t2 c0 : CamTransform) (d : ℕ → ℝ)
    (hd : ∀ n, 0 ≤ d n) (m : ℕ) (tgt : ℕ → CamTransform)
    (h1 : ∀ n, n < m → tgt n = t1) (h2 : ∀ n, m ≤ n → tgt n = t2) :
    animTrajSeq tgt c0 d m = animTraj t1 c0 d m ∧
    animTrajSeq tgt c0 d (m + 1) =
      animTick t2 (animTraj t1 c0 d m) (d m) ∧
    (min (animTraj t1 c0 d m).x t2.x ≤ (animTrajSeq tgt c0 d (m + 1)).x ∧
     (animTrajSeq tgt c0 d (m + 1)).x ≤ max (animTraj t1 c0 d m).x t2.x) ∧
    (min (animTraj t1 c0 d m).y t2.y ≤ (animTrajSeq tgt c0 d (m + 1)).y ∧
     (animTrajSeq tgt c0 d (m + 1)).y ≤ max (animTraj t1 c0 d m).y t2.y) ∧
    (min (animTraj t1 c0 d m).k t2.k ≤ (animTrajSeq tgt c0 d (m + 1)).k ∧
     (animTrajSeq tgt c0 d (m + 1)).k ≤ max (animTraj t1 c0 d m).k t2.k) := by
  have hpre : ∀ n, n ≤ m → animTrajSeq tgt c0 d n = animTraj t1 c0 d n := by
    intro n hn
    induction n with
    | zero => rfl
    | succ n ih =>
      show animTick (tgt n) (animTrajSeq tgt c0 d n) (d n) =
        animTick t1 (animTraj t1 c0 d n) (d n)
      rw [h1 n (by omega), ih (by omega)]
  have hA : animTrajSeq tgt c0 d m = animTraj t1 c0 d m := hpre m le_rfl
  have hB : animTrajSeq tgt c0 d (m + 1) =
      animTick t2 (animTraj t1 c0 d m) (d m) := by
    show animTick (tgt m) (animTrajSeq tgt c0 d m) (d m) = _
    rw [h2 m le_rfl, hA]
  have hbet := animTick_between t2 (animTraj t1 c0 d m) (d m) (hd m)
  rw [hB]
  exact ⟨hA, rfl, hbet.1, hbet.2.1, hbet.2.2⟩

theorem retarget_preserves_current_witness :
    animTrajSeq
        (fun n => if n < 2 then ⟨1, 2, 3⟩ else ⟨4, 5, 6⟩)
        ⟨0, 0, 1⟩ (fun _ => 16) 2 =
      animTraj ⟨1, 2, 3⟩ ⟨0, 0, 1⟩ (fun _ => 16) 2 :=
  (retarget_preserves_current ⟨1, 2, 3⟩ ⟨4, 5, 6⟩ ⟨0, 0, 1⟩ (fun _ => 16)
    (fun _ => by norm_num) 2 _
    (fun n hn => if_pos hn) (fun n hn => if_neg (by omega))).1
